import Mathlib

/-!
Verification development for the FirstJobly backend (three source variants:
a PostgreSQL variant, and two MySQL/TiDB variants with a SQLite fallback).
We shallowly embed the request handlers of the three `server.js` variants:
JavaScript values are modelled by `JSVal`, the SQL `posts` table by a list of
`PostRow`, and each HTTP handler by a pure Lean function from the request
body and the current table to a status code and the new table.
-/

/-- Model of the JavaScript values that can appear in a JSON request body
(plus `undefined` for absent fields). Numbers carry only their truncated
integer value: in the embedded handlers a parsed number is only ever
inspected for truthiness and for (non-)stringness, never for its exact
numeric value. -/
inductive JSVal where
  | jsUndefined : JSVal
  | jsNull : JSVal
  | jsBool (b : Bool) : JSVal
  | jsNum (n : Int) : JSVal
  | jsStr (s : String) : JSVal
  | jsArr (elems : List JSVal) : JSVal
  | jsObj (fields : List (String × JSVal)) : JSVal

open JSVal

/-- JavaScript truthiness (`Boolean(v)`): `undefined`, `null`, `false`,
`0` and the empty string are falsy, everything else is truthy. -/
def truthy : JSVal → Bool
  | jsUndefined => false
  | jsNull => false
  | jsBool b => b
  | jsNum n => n != 0
  | jsStr s => s != ""
  | jsArr _ => true
  | jsObj _ => true

/-- The JavaScript `v === undefined` test. -/
def isUndef : JSVal → Bool
  | jsUndefined => true
  | _ => false

/-- The JavaScript `typeof v === 'string'` test. -/
def isStr : JSVal → Bool
  | jsStr _ => true
  | _ => false

/-- The JavaScript `Array.isArray(v)` test. -/
def isArr : JSVal → Bool
  | jsArr _ => true
  | _ => false

/-- The string carried by a `jsStr`; an arbitrary default elsewhere
(only applied to values already known to be strings). -/
def strVal : JSVal → String
  | jsStr s => s
  | _ => ""

/-- Whitespace trimmed by JavaScript `String.prototype.trim` (the ASCII
whitespace characters; exotic Unicode space classes are not modelled). -/
def isTrimWs (c : Char) : Bool :=
  c = ' ' || c = '\t' || c = '\n' || c = '\r' || c = '\x0b' || c = '\x0c'

/-- Model of JavaScript `s.trim()`: drop leading and trailing whitespace. -/
def jsTrim (s : String) : String :=
  String.mk (((s.toList.dropWhile isTrimWs).reverse.dropWhile isTrimWs).reverse)

/-- Model of JavaScript `s.split(',')`. -/
def splitCommaAux : List Char → List Char → List String
  | [], acc => [String.mk acc.reverse]
  | ',' :: r, acc => String.mk acc.reverse :: splitCommaAux r []
  | c :: r, acc => splitCommaAux r (c :: acc)

/-- Model of JavaScript `s.split(',')` on a `String`. -/
def splitComma (s : String) : List String :=
  splitCommaAux s.toList []

/-! Section: A model of `JSON.parse`

A standard recursive-descent JSON parser over the character list, with an
explicit fuel argument so that all recursion is structural (hence the
definitions compute by kernel reduction). `JSON.parse` fails exactly when
the input is not a single JSON value followed only by whitespace. -/

/-- JSON insignificant whitespace (space, tab, line feed, carriage return). -/
def isJsonWs (c : Char) : Bool :=
  c = ' ' || c = '\t' || c = '\n' || c = '\r'

/-- Skip JSON whitespace. -/
def skipWs (cs : List Char) : List Char :=
  cs.dropWhile isJsonWs

/-- Value of a hexadecimal digit, if any. -/
def hexVal (c : Char) : Option Nat :=
  if '0' ≤ c && c ≤ '9' then some (c.toNat - 48)
  else if 'a' ≤ c && c ≤ 'f' then some (c.toNat - 87)
  else if 'A' ≤ c && c ≤ 'F' then some (c.toNat - 55)
  else none

/-- Parse the body of a JSON string (after the opening quote), handling the
escape sequences of the JSON grammar; control characters are invalid. -/
def parseStrBody : Nat → List Char → List Char → Option (String × List Char)
  | 0, _, _ => none
  | fuel + 1, acc, cs =>
    match cs with
    | [] => none
    | '"' :: r => some (String.mk acc.reverse, r)
    | '\\' :: e :: r =>
      match e with
      | '"' => parseStrBody fuel ('"' :: acc) r
      | '\\' => parseStrBody fuel ('\\' :: acc) r
      | '/' => parseStrBody fuel ('/' :: acc) r
      | 'b' => parseStrBody fuel ('\x08' :: acc) r
      | 'f' => parseStrBody fuel ('\x0c' :: acc) r
      | 'n' => parseStrBody fuel ('\n' :: acc) r
      | 'r' => parseStrBody fuel ('\r' :: acc) r
      | 't' => parseStrBody fuel ('\t' :: acc) r
      | 'u' =>
        match r with
        | h1 :: h2 :: h3 :: h4 :: r2 =>
          match hexVal h1, hexVal h2, hexVal h3, hexVal h4 with
          | some a, some b, some c, some d =>
            let n := ((a * 16 + b) * 16 + c) * 16 + d
            if h : n.isValidChar then
              parseStrBody fuel (Char.ofNatAux n h :: acc) r2
            else
              parseStrBody fuel ('�' :: acc) r2
          | _, _, _, _ => none
        | _ => none
      | _ => none
    | '\\' :: [] => none
    | c :: r => if c.toNat < 32 then none else parseStrBody fuel (c :: acc) r

/-- Parse a JSON number token. Only the truncated integer value is kept
(see `JSVal.jsNum`); the fraction and exponent parts are validated
syntactically and discarded. -/
def parseNumber (cs : List Char) : Option (Int × List Char) :=
  let (neg, cs1) :=
    match cs with
    | '-' :: r => (true, r)
    | _ => (false, cs)
  match cs1 with
  | [] => none
  | c :: _ =>
    if !c.isDigit then none
    else
      let (ds, rest) := cs1.span Char.isDigit
      if ds.length > 1 && ds.head? = some '0' then none
      else
        let n : Nat := ds.foldl (fun a d => a * 10 + (d.toNat - 48)) 0
        let fracRes : Option (List Char) :=
          match rest with
          | '.' :: r =>
            let (fs, r2) := r.span Char.isDigit
            if fs.isEmpty then none else some r2
          | _ => some rest
        match fracRes with
        | none => none
        | some rest2 =>
          let expRes : Option (List Char) :=
            match rest2 with
            | 'e' :: r => some r
            | 'E' :: r => some r
            | _ => none
          match expRes with
          | none => some (if neg then -(n : Int) else (n : Int), rest2)
          | some r =>
            let r' :=
              match r with
              | '+' :: r2 => r2
              | '-' :: r2 => r2
              | _ => r
            let (es, r2) := r'.span Char.isDigit
            if es.isEmpty then none
            else some (if neg then -(n : Int) else (n : Int), r2)

/-- Parsing mode: a toplevel value, the elements of an array (with the
elements parsed so far), or the members of an object. -/
inductive PMode where
  | top : PMode
  | arrElems (acc : List JSVal) : PMode
  | objMembers (acc : List (String × JSVal)) : PMode

/-- The core JSON parser, structurally recursive on its fuel. -/
def parseCore : Nat → PMode → List Char → Option (JSVal × List Char)
  | 0, _, _ => none
  | fuel + 1, PMode.top, cs =>
    match skipWs cs with
    | 'n' :: 'u' :: 'l' :: 'l' :: r => some (jsNull, r)
    | 't' :: 'r' :: 'u' :: 'e' :: r => some (jsBool true, r)
    | 'f' :: 'a' :: 'l' :: 's' :: 'e' :: r => some (jsBool false, r)
    | '"' :: r =>
      match parseStrBody (fuel + 1) [] r with
      | some (s, r2) => some (jsStr s, r2)
      | none => none
    | '[' :: r =>
      match skipWs r with
      | ']' :: r2 => some (jsArr [], r2)
      | _ => parseCore fuel (PMode.arrElems []) r
    | '{' :: r =>
      match skipWs r with
      | '}' :: r2 => some (jsObj [], r2)
      | _ => parseCore fuel (PMode.objMembers []) r
    | cs' =>
      match parseNumber cs' with
      | some (n, r) => some (jsNum n, r)
      | none => none
  | fuel + 1, PMode.arrElems acc, cs =>
    match parseCore fuel PMode.top cs with
    | none => none
    | some (v, r) =>
      match skipWs r with
      | ',' :: r2 => parseCore fuel (PMode.arrElems (acc ++ [v])) r2
      | ']' :: r2 => some (jsArr (acc ++ [v]), r2)
      | _ => none
  | fuel + 1, PMode.objMembers acc, cs =>
    match skipWs cs with
    | '"' :: r =>
      match parseStrBody (fuel + 1) [] r with
      | none => none
      | some (k, r2) =>
        match skipWs r2 with
        | ':' :: r3 =>
          match parseCore fuel PMode.top r3 with
          | none => none
          | some (v, r4) =>
            match skipWs r4 with
            | ',' :: r5 => parseCore fuel (PMode.objMembers (acc ++ [(k, v)])) r5
            | '}' :: r5 => some (jsObj (acc ++ [(k, v)]), r5)
            | _ => none
        | _ => none
    | _ => none

/-- Model of `JSON.parse(s)`: `some v` on success, `none` when the JS
builtin would throw a `SyntaxError` (in the sources every call is wrapped
in `try/catch`, so a failure is always observed as the catch branch). -/
def jsonParse (s : String) : Option JSVal :=
  match parseCore (s.length + 1) PMode.top s.toList with
  | some (v, rest) => if (skipWs rest).isEmpty then some v else none
  | none => none

/-! Section: A model of `JSON.stringify` -/

/-- Escape one character as inside a JSON string literal, as
`JSON.stringify` does. -/
def escChar (c : Char) : String :=
  if c = '"' then "\\\""
  else if c = '\\' then "\\\\"
  else if c = '\n' then "\\n"
  else if c = '\r' then "\\r"
  else if c = '\t' then "\\t"
  else if c = '\x08' then "\\b"
  else if c = '\x0c' then "\\f"
  else if c.toNat < 32 then
    "\\u00" ++ String.mk [(Nat.digitChar (c.toNat / 16)), (Nat.digitChar (c.toNat % 16))]
  else String.mk [c]

/-- Concatenate with commas, as array elements in `JSON.stringify`. -/
def joinComma : List String → String
  | [] => ""
  | [x] => x
  | x :: r => x ++ "," ++ joinComma r

/-- Quote a string as a JSON string literal. -/
def quoteStr (s : String) : String :=
  "\"" ++ String.join (s.toList.map escChar) ++ "\""

/-- Fuelled core of `JSON.stringify`; recursion is structural on the fuel.
Inside arrays, `undefined` serializes as `null`; object members whose value
is `undefined` are skipped, as the JS builtin does. -/
def stringifyF : Nat → JSVal → String
  | _, jsUndefined => "null"
  | _, jsNull => "null"
  | _, jsBool true => "true"
  | _, jsBool false => "false"
  | _, jsNum n => toString n
  | _, jsStr s => quoteStr s
  | 0, jsArr _ => ""
  | fuel + 1, jsArr xs => "[" ++ joinComma (xs.map (fun x => stringifyF fuel x)) ++ "]"
  | 0, jsObj _ => ""
  | fuel + 1, jsObj ms =>
    let kept := ms.filter (fun m => !(isUndef m.2))
    "\x7b" ++ joinComma (kept.map (fun m => quoteStr m.1 ++ ":" ++ stringifyF fuel m.2)) ++ "\x7d"

/-- A syntactic size of a value, used only as (always sufficient) fuel for
`stringifyF`: it strictly dominates the nesting depth. -/
def jsSize : JSVal → Nat
  | jsArr [] => 2
  | jsArr (x :: xs) => 1 + jsSize x + jsSize (jsArr xs)
  | jsObj [] => 2
  | jsObj ((_, v) :: ms) => 1 + jsSize v + jsSize (jsObj ms)
  | _ => 1

/-- Model of `JSON.stringify(v)` for defined values (the sources only ever
stringify a truthy value or a literal empty array). -/
def jsonStringify (v : JSVal) : String :=
  stringifyF (jsSize v) v

/-! Section: Skills normalization (the Postgres variant's write path) -/

/-- The comma-split branch of the Postgres variant:
`skills.split(',').map(s => s.trim()).filter(Boolean)` — the resulting JS
array of strings. -/
def commaSplitSkills (s : String) : List JSVal :=
  (((splitComma s).map jsTrim).filter (fun t => t != "")).map jsStr

/-- The cleanup pass of the Postgres variant:
`skills.filter(s => s && typeof s === 'string').map(s => s.trim()).filter(s => s.length > 0)`. -/
def cleanSkills (xs : List JSVal) : List String :=
  (((xs.filter (fun v => truthy v && isStr v)).map (fun v => jsTrim (strVal v))).filter
    (fun s => s.length > 0))

/-- The full skills normalization of the Postgres variant's `POST /posts`:
a string is `JSON.parse`d (comma-split on parse failure), a non-array
result is replaced by the empty array, and the cleanup pass is applied. -/
def normalizeSkills (v : JSVal) : List String :=
  let v1 : JSVal :=
    match v with
    | jsStr s =>
      match jsonParse s with
      | some p => p
      | none => jsArr (commaSplitSkills s)
    | x => x
  let arr : List JSVal :=
    match v1 with
    | jsArr xs => xs
    | _ => []
  cleanSkills arr

/-! Section: The posts table and the request body

A stored row of the `posts` table. Stored SQL values are modelled as
`JSVal`s: a bound JS `undefined` becomes SQL `NULL` at the driver boundary
(`sqlBind`). In the Postgres variant the `skills` column is `jsonb` and
holds the decoded array; in the MySQL and SQLite variants it is a
text-like column holding the serialized JSON string. -/

structure PostRow where
  id : Nat
  title : JSVal
  description : JSVal
  company_name : JSVal
  company_logo : JSVal
  job_req_id : JSVal
  apply_link : JSVal
  location : JSVal
  experience : JSVal
  skills : JSVal
  remote_type : JSVal
  time_type : JSVal
  posted_date : JSVal
  created_at : Nat

/-- The destructured fields of a `POST /posts` JSON body; a field that is
absent from the body destructures to `undefined`. -/
structure ReqBody where
  title : JSVal
  description : JSVal
  company_name : JSVal
  company_logo : JSVal
  job_req_id : JSVal
  apply_link : JSVal
  location : JSVal
  experience : JSVal
  skills : JSVal
  remote_type : JSVal
  time_type : JSVal
  posted_date : JSVal

/-- Binding a JS value as an SQL parameter: drivers send `undefined` as
SQL `NULL`; every other value is passed through. -/
def sqlBind (v : JSVal) : JSVal :=
  match v with
  | jsUndefined => jsNull
  | x => x

/-- The JavaScript `v || null` expression: `null` for falsy `v`. -/
def jsOrNull (v : JSVal) : JSVal :=
  if truthy v then v else jsNull

/-- The shared required-field check of all three variants:
`if (!title || !description) return 400`. -/
def requiredOk (title description : JSVal) : Bool :=
  truthy title && truthy description

/-- Whether inserting key `k` into `job_req_id` hits the unique constraint
on an existing row `r`: SQL `NULL` never conflicts; non-null values
conflict exactly when equal (compared at matching SQL types). -/
def keyConflict (k : JSVal) (r : PostRow) : Bool :=
  match k, r.job_req_id with
  | jsStr a, jsStr b => a = b
  | jsNum a, jsNum b => a = b
  | _, _ => false

/-- Outcome of a `POST /posts` call: the HTTP status, the table after the
call, and the next store-assigned id. -/
structure PostOutcome where
  status : Nat
  db : List PostRow
  nextId : Nat

/-- The row inserted by the Postgres variant when no conflict occurs:
`id` and `created_at` are store-assigned, `skills` is the `jsonb` decoding
of the forcibly serialized clean array, `posted_date` is `posted_date || null`,
and every other field is the bound request value. -/
def pgNewRow (b : ReqBody) (nextId now : Nat) : PostRow where
  id := nextId
  title := sqlBind b.title
  description := sqlBind b.description
  company_name := sqlBind b.company_name
  company_logo := sqlBind b.company_logo
  job_req_id := sqlBind b.job_req_id
  apply_link := sqlBind b.apply_link
  location := sqlBind b.location
  experience := sqlBind b.experience
  skills := jsArr ((normalizeSkills b.skills).map jsStr)
  remote_type := sqlBind b.remote_type
  time_type := sqlBind b.time_type
  posted_date := sqlBind (jsOrNull b.posted_date)
  created_at := now

/-- The Postgres `ON CONFLICT (job_req_id) DO UPDATE SET` clause: the
existing row with `title`, `description`, `apply_link`, `company_logo` and
`skills` replaced by the excluded (incoming) values. -/
def pgUpdateRow (b : ReqBody) (r : PostRow) : PostRow :=
  { r with
    title := sqlBind b.title
    description := sqlBind b.description
    apply_link := sqlBind b.apply_link
    company_logo := sqlBind b.company_logo
    skills := jsArr ((normalizeSkills b.skills).map jsStr) }

/-- The `POST /posts` handler of the Postgres variant (`server.js` v12.5):
validate `title`/`description`, normalize `skills`, then
`INSERT ... ON CONFLICT (job_req_id) DO UPDATE`. -/
def pgPost (db : List PostRow) (nextId now : Nat) (b : ReqBody) : PostOutcome :=
  if !(requiredOk b.title b.description) then ⟨400, db, nextId⟩
  else
    let k := sqlBind b.job_req_id
    if db.any (keyConflict k) then
      ⟨201, db.map (fun r => if keyConflict k r then pgUpdateRow b r else r), nextId⟩
    else
      ⟨201, db ++ [pgNewRow b nextId now], nextId + 1⟩

/-- The serialized skills string stored by the MySQL and SQLite write
paths: `JSON.stringify(skills || [])`. -/
def v6SkillsString (skills : JSVal) : String :=
  jsonStringify (if truthy skills then skills else jsArr [])

/-- The row inserted by the MySQL and SQLite variants when no conflict
occurs: `job_req_id` and `posted_date` are bound as `value || null` and
`skills` is stored as the serialized string `JSON.stringify(skills || [])`. -/
def v6NewRow (b : ReqBody) (nextId now : Nat) : PostRow where
  id := nextId
  title := sqlBind b.title
  description := sqlBind b.description
  company_name := sqlBind b.company_name
  company_logo := sqlBind b.company_logo
  job_req_id := sqlBind (jsOrNull b.job_req_id)
  apply_link := sqlBind b.apply_link
  location := sqlBind b.location
  experience := sqlBind b.experience
  skills := jsStr (v6SkillsString b.skills)
  remote_type := sqlBind b.remote_type
  time_type := sqlBind b.time_type
  posted_date := sqlBind (jsOrNull b.posted_date)
  created_at := now

/-- The MySQL `ON DUPLICATE KEY UPDATE` clause of `server.js` v6 and v8:
only `title`, `description` and `apply_link` are refreshed. -/
def mysqlUpdateRow (b : ReqBody) (r : PostRow) : PostRow :=
  { r with
    title := sqlBind b.title
    description := sqlBind b.description
    apply_link := sqlBind b.apply_link }

/-- The `POST /posts` handler on the MySQL (TiDB) primary of `server.js`
v6 and v8: `INSERT ... ON DUPLICATE KEY UPDATE title, description, apply_link`. -/
def mysqlPost (db : List PostRow) (nextId now : Nat) (b : ReqBody) : PostOutcome :=
  if !(requiredOk b.title b.description) then ⟨400, db, nextId⟩
  else
    let k := sqlBind (jsOrNull b.job_req_id)
    if db.any (keyConflict k) then
      ⟨201, db.map (fun r => if keyConflict k r then mysqlUpdateRow b r else r), nextId⟩
    else
      ⟨201, db ++ [v6NewRow b nextId now], nextId + 1⟩

/-- The `POST /posts` handler on the SQLite fallback of `server.js` v6 and
v8: `INSERT OR IGNORE` — a conflicting write is dropped entirely, and the
handler still reports success. -/
def sqlitePost (db : List PostRow) (nextId now : Nat) (b : ReqBody) : PostOutcome :=
  if !(requiredOk b.title b.description) then ⟨400, db, nextId⟩
  else
    let k := sqlBind (jsOrNull b.job_req_id)
    if db.any (keyConflict k) then
      ⟨201, db, nextId⟩
    else
      ⟨201, db ++ [v6NewRow b nextId now], nextId + 1⟩

/-! Section: Reads: pagination, listing order, point lookup -/

/-- `Math.ceil(total / 24)` for a natural count, as computed by the `GET
/posts` handlers with `limit = 24`. -/
def ceil24 (total : Nat) : Nat :=
  (total + 23) / 24

/-- The pagination object of the MySQL/SQLite variants' `GET /posts`:
all five fields, with `hasNext = page < totalPages` and `hasPrev = page > 1`. -/
structure PaginationFull where
  currentPage : Nat
  totalPages : Nat
  totalJobs : Nat
  hasNext : Bool
  hasPrev : Bool

/-- The pagination object built by `server.js` v6 and v8 (after the
`Math.max(1, ...)` clamp on `page`). -/
def v6Pagination (page total : Nat) : PaginationFull where
  currentPage := page
  totalPages := ceil24 total
  totalJobs := total
  hasNext := page < ceil24 total
  hasPrev := 1 < page

/-- The pagination object of the Postgres variant's `GET /posts`: only
`currentPage`, `totalPages` and `totalJobs` are present in the response. -/
structure PaginationPg where
  currentPage : Nat
  totalPages : Nat
  totalJobs : Nat

/-- The pagination object built by the Postgres variant. -/
def pgPagination (page total : Nat) : PaginationPg where
  currentPage := page
  totalPages := ceil24 total
  totalJobs := total

/-- The rows of `SELECT * FROM posts ORDER BY created_at DESC` are sorted
by `created_at` descending — and by nothing else. -/
def createdDescSorted (l : List PostRow) : Prop :=
  l.Pairwise (fun a b => b.created_at ≤ a.created_at)

/-- `LIMIT 24 OFFSET (page-1)*24` applied to the engine-ordered rows. -/
def listWindow (ord : List PostRow) (page : Nat) : List PostRow :=
  (ord.drop ((page - 1) * 24)).take 24

/-- The possible result pages of `GET /posts`: the engine returns the
table in some order that is sorted by `created_at` descending (ties are
broken arbitrarily by the engine — the query has no secondary sort key),
and the handler takes the page window from it. This is the semantics of
the one `SELECT` shared by all three variants. -/
def listOutcome (db : List PostRow) (page : Nat) (res : List PostRow) : Prop :=
  ∃ ord : List PostRow, db.Perm ord ∧ createdDescSorted ord ∧ res = listWindow ord page

/-- The total, deterministic order the specification claims: `created_at`
descending with ties broken by `id` descending. -/
def specListSorted (l : List PostRow) : Prop :=
  l.Pairwise (fun a b =>
    b.created_at < a.created_at ∨ (b.created_at = a.created_at ∧ b.id < a.id))

/-- Result of `GET /posts/:id`: either the row (together with the skills
value the handler puts in the JSON response) or an HTTP error object. -/
inductive IdLookup where
  | okRow (r : PostRow) (skillsOut : JSVal) : IdLookup
  | httpError (status : Nat) (msg : String) : IdLookup

/-- Skills post-processing in the `GET /posts/:id` handler of `server.js`
v6 and v8: `if (job.skills && typeof job.skills === 'string') try parse
catch []` — non-strings and falsy values are left untouched. -/
def v6GetSkills (v : JSVal) : JSVal :=
  if truthy v && isStr v then
    match jsonParse (strVal v) with
    | some p => p
    | none => jsArr []
  else v

/-- Skills post-processing in the `GET /posts` list handler of `server.js`
v6 and v8: falsy skills become `[]`, strings are parsed (on failure `[]`),
other truthy values are left untouched. -/
def v6ListSkills (v : JSVal) : JSVal :=
  if truthy v then
    if isStr v then
      match jsonParse (strVal v) with
      | some p => p
      | none => jsArr []
    else v
  else jsArr []

/-- `GET /posts/:id` of the Postgres variant: the row is returned as is
(skills live decoded in the `jsonb` column); a missing id yields
`404 Post not found`. -/
def pgGetById (db : List PostRow) (i : Nat) : IdLookup :=
  match db.find? (fun r => r.id = i) with
  | some r => IdLookup.okRow r r.skills
  | none => IdLookup.httpError 404 "Post not found"

/-- `GET /posts/:id` of `server.js` v6 and v8 (either backend): stored
string skills are JSON-decoded; a missing id yields `404 Job not found`. -/
def v6GetById (db : List PostRow) (i : Nat) : IdLookup :=
  match db.find? (fun r => r.id = i) with
  | some r => IdLookup.okRow r (v6GetSkills r.skills)
  | none => IdLookup.httpError 404 "Job not found"

/-! Section: Startup and backend selection -/

/-- A JS environment variable: absent, or present with a string value;
`envFalsy` is the `!process.env.X` test. -/
def envFalsy : Option String → Bool
  | none => true
  | some s => s = ""

/-- Outcome of process startup. -/
inductive StartupResult where
  | exited (code : Nat) : StartupResult
  | started : StartupResult

/-- Primary-store configuration of the Postgres variant. -/
structure PgEnv where
  DATABASE_URL : Option String

/-- The module-level check of the Postgres variant: `if
(!process.env.DATABASE_URL) { console.error('FATAL: ...'); process.exit(1) }` —
an absent connection string terminates the process with exit code 1. -/
def pgStartupCheck (env : PgEnv) : StartupResult :=
  if envFalsy env.DATABASE_URL then StartupResult.exited 1 else StartupResult.started

/-- Primary-store configuration of `server.js` v8 (environment variables
only; v6 instead hardcodes default credentials, so its configuration is
never absent). -/
structure MysqlEnv where
  DB_HOST : Option String
  DB_USER : Option String
  DB_PASSWORD : Option String

/-- Which backend the selector settled on. -/
inductive Backend where
  | tidb : Backend
  | sqliteLocal : Backend

/-- Result of `connectToDatabase`: the selected backend, and whether a
connection to the primary store was attempted at all. -/
structure ConnectResult where
  backend : Backend
  attemptedPrimary : Bool

/-- `connectToDatabase` of `server.js` v8: when one of `DB_HOST`,
`DB_USER`, `DB_PASSWORD` is missing and `DB_HOST` is missing, switch to
the SQLite fallback without attempting a connection; otherwise attempt the
primary and fall back on failure (`primaryReachable` models whether the
`pool.getConnection()` probe succeeds). -/
def connectToDatabase (env : MysqlEnv) (primaryReachable : Bool) : ConnectResult :=
  let missing := [env.DB_HOST, env.DB_USER, env.DB_PASSWORD].filter envFalsy
  if missing.length > 0 && envFalsy env.DB_HOST then
    ⟨Backend.sqliteLocal, false⟩
  else if primaryReachable then ⟨Backend.tidb, true⟩
  else ⟨Backend.sqliteLocal, true⟩

/-- `connectToDatabase` of `server.js` v6: the config object always holds
(hardcoded default) credentials, so a primary connection is always
attempted, with SQLite fallback on failure. -/
def connectToDatabaseV6 (primaryReachable : Bool) : ConnectResult :=
  if primaryReachable then ⟨Backend.tidb, true⟩ else ⟨Backend.sqliteLocal, true⟩

/-! Section: Concrete values and small helpers used in the statements -/

/-- The titles of the rows stored under the requisition key `s` (the rows a
`SELECT ... WHERE job_req_id = s` would return). -/
def titlesUnder (s : String) (db : List PostRow) : List JSVal :=
  (db.filter (fun r => keyConflict (jsStr s) r)).map (fun r => r.title)

/-- A request body with every field absent. -/
def emptyBody : ReqBody :=
  ⟨jsUndefined, jsUndefined, jsUndefined, jsUndefined, jsUndefined, jsUndefined,
   jsUndefined, jsUndefined, jsUndefined, jsUndefined, jsUndefined, jsUndefined⟩

/-- First write of the duplicate-key scenario: title `A`, key `J1`. -/
def bodyA : ReqBody :=
  { emptyBody with
    title := jsStr "A"
    description := jsStr "d"
    job_req_id := jsStr "J1" }

/-- Second write of the duplicate-key scenario: title `B`, same key `J1`. -/
def bodyB : ReqBody :=
  { bodyA with title := jsStr "B" }

/-- A body whose title and description are a single space. -/
def bodyWs : ReqBody :=
  { emptyBody with
    title := jsStr " "
    description := jsStr " " }

/-- A body whose skills field is the plain (non-JSON-array) string `php`. -/
def bodyPhp : ReqBody :=
  { emptyBody with
    title := jsStr "t"
    description := jsStr "d"
    skills := jsStr "php" }

/-- A body carrying a new company logo for key `J1`. -/
def bodyNewLogo : ReqBody :=
  { emptyBody with
    title := jsStr "T1"
    description := jsStr "D1"
    job_req_id := jsStr "J1"
    company_logo := jsStr "new.png" }

/-- A body for key `J1` with no company logo at all. -/
def bodyNoLogo : ReqBody :=
  { emptyBody with
    title := jsStr "T1"
    description := jsStr "D1"
    job_req_id := jsStr "J1" }

/-- An existing stored row under key `J1` with a logo and optional fields. -/
def rowOld : PostRow :=
  ⟨3, jsStr "T0", jsStr "D0", jsStr "ACME", jsStr "old.png", jsStr "J1", jsStr "L0",
   jsStr "Pune", jsStr "2y", jsStr "[]", jsStr "office", jsStr "full", jsNull, 7⟩

/-- A stored row with `created_at = 5` and `id = 1`. -/
def rowT1 : PostRow :=
  ⟨1, jsStr "t1", jsStr "d", jsNull, jsNull, jsNull, jsNull, jsNull, jsNull,
   jsStr "[]", jsNull, jsNull, jsNull, 5⟩

/-- A stored row with the same `created_at = 5` but `id = 2`. -/
def rowT2 : PostRow :=
  { rowT1 with
    id := 2
    title := jsStr "t2" }

/-! Section: Helper lemmas -/

/-- A valid required-field check means both fields are truthy. -/
theorem truthy_of_requiredOk {t d : JSVal} (h : requiredOk t d = true) :
    truthy t = true ∧ truthy d = true := by
  simpa [requiredOk, Bool.and_eq_true] using h

/-- Binding a truthy value as an SQL parameter keeps it. -/
theorem sqlBind_of_truthy {v : JSVal} (h : truthy v = true) : sqlBind v = v := by
  cases v <;> simp_all [truthy, sqlBind]

/-- The JS `v || null` of a truthy value is the value itself. -/
theorem jsOrNull_of_truthy {v : JSVal} (h : truthy v = true) : jsOrNull v = v := by
  simp [jsOrNull, h]

/-- A row whose key equals the inserted non-empty string key conflicts. -/
theorem keyConflict_of_eq {s : String} {r : PostRow} (h : r.job_req_id = jsStr s) :
    keyConflict (jsStr s) r = true := by
  simp [keyConflict, h]

/-- A SQL `NULL` key never conflicts with any row. -/
theorem keyConflict_null (r : PostRow) : keyConflict jsNull r = false := by
  cases h : r.job_req_id <;> simp [keyConflict, h]

/-- Conflict only looks at the stored key. -/
theorem keyConflict_congr {k : JSVal} {r1 r2 : PostRow}
    (h : r1.job_req_id = r2.job_req_id) : keyConflict k r1 = keyConflict k r2 := by
  unfold keyConflict
  rw [h]

/-- An empty filter under a predicate makes `any` false. -/
theorem any_eq_false_of_filter_eq_nil {p : PostRow → Bool} {l : List PostRow}
    (h : l.filter p = []) : l.any p = false := by
  rw [List.any_eq_false]
  intro x hx
  simp only [List.filter_eq_nil_iff] at h
  simp [h x hx]

/-- Filtering a keyed conditional update: updated rows keep their key, so
the filter commutes with the update map. -/
theorem filter_map_keyed (p : PostRow → Bool) (f : PostRow → PostRow)
    (hf : ∀ r, p (f r) = p r) :
    ∀ db : List PostRow,
      (db.map (fun r => if p r then f r else r)).filter p = (db.filter p).map f := by
  intro db
  induction db with
  | nil => rfl
  | cons a l ih =>
    by_cases h : p a = true
    · simp [List.filter_cons, List.map_cons, h, hf, ih]
    · rw [Bool.not_eq_true] at h
      simp [List.filter_cons, List.map_cons, h, hf, ih]

/-- The Postgres insert branch: validation passed and no key conflict. -/
theorem pgPost_insert (db : List PostRow) (nid now : Nat) (b : ReqBody)
    (hreq : requiredOk b.title b.description = true)
    (h : db.any (keyConflict (sqlBind b.job_req_id)) = false) :
    pgPost db nid now b = ⟨201, db ++ [pgNewRow b nid now], nid + 1⟩ := by
  simp [pgPost, hreq, h]

/-- The Postgres conflict branch: every conflicting row is updated. -/
theorem pgPost_update (db : List PostRow) (nid now : Nat) (b : ReqBody)
    (hreq : requiredOk b.title b.description = true)
    (h : db.any (keyConflict (sqlBind b.job_req_id)) = true) :
    pgPost db nid now b =
      ⟨201,
       db.map (fun r =>
         if keyConflict (sqlBind b.job_req_id) r then pgUpdateRow b r else r),
       nid⟩ := by
  simp [pgPost, hreq, h]

/-- The MySQL insert branch. -/
theorem mysqlPost_insert (db : List PostRow) (nid now : Nat) (b : ReqBody)
    (hreq : requiredOk b.title b.description = true)
    (h : db.any (keyConflict (sqlBind (jsOrNull b.job_req_id))) = false) :
    mysqlPost db nid now b = ⟨201, db ++ [v6NewRow b nid now], nid + 1⟩ := by
  simp [mysqlPost, hreq, h]

/-- The MySQL duplicate-key branch. -/
theorem mysqlPost_update (db : List PostRow) (nid now : Nat) (b : ReqBody)
    (hreq : requiredOk b.title b.description = true)
    (h : db.any (keyConflict (sqlBind (jsOrNull b.job_req_id))) = true) :
    mysqlPost db nid now b =
      ⟨201,
       db.map (fun r =>
         if keyConflict (sqlBind (jsOrNull b.job_req_id)) r then mysqlUpdateRow b r else r),
       nid⟩ := by
  simp [mysqlPost, hreq, h]

/-- The SQLite insert branch. -/
theorem sqlitePost_insert (db : List PostRow) (nid now : Nat) (b : ReqBody)
    (hreq : requiredOk b.title b.description = true)
    (h : db.any (keyConflict (sqlBind (jsOrNull b.job_req_id))) = false) :
    sqlitePost db nid now b = ⟨201, db ++ [v6NewRow b nid now], nid + 1⟩ := by
  simp [sqlitePost, hreq, h]

/-- The SQLite conflict branch: the write is ignored. -/
theorem sqlitePost_ignore (db : List PostRow) (nid now : Nat) (b : ReqBody)
    (hreq : requiredOk b.title b.description = true)
    (h : db.any (keyConflict (sqlBind (jsOrNull b.job_req_id))) = true) :
    sqlitePost db nid now b = ⟨201, db, nid⟩ := by
  simp [sqlitePost, hreq, h]

/-! Section: Claim C2 — startup with absent primary configuration -/

/-- Claim C2 counterexample: in the Postgres variant, an entirely absent
`DATABASE_URL` makes startup call `process.exit(1)` — startup fails with
an error instead of proceeding to any fallback, contradicting the claim
that absence of configuration is never a startup error. -/
theorem claim2_counterexample :
    pgStartupCheck ⟨none⟩ = StartupResult.exited 1
    ∧ StartupResult.exited 1 ≠ StartupResult.started :=
  ⟨rfl, by simp⟩

/-- Claim C2 (amended): in the env-var MySQL variant (`server.js` v8),
entirely absent primary configuration selects the SQLite fallback without
attempting a primary connection, for any reachability; but in the Postgres
variant an absent `DATABASE_URL` exits the process with code 1, and the
hardcoded-default variant (`server.js` v6) always attempts a primary
connection. -/
theorem claim2_theorem :
    (∀ reachable : Bool,
      connectToDatabase ⟨none, none, none⟩ reachable = ⟨Backend.sqliteLocal, false⟩)
    ∧ pgStartupCheck ⟨none⟩ = StartupResult.exited 1
    ∧ (∀ reachable : Bool, (connectToDatabaseV6 reachable).attemptedPrimary = true) := by
  refine ⟨fun reachable => rfl, rfl, fun reachable => ?_⟩
  cases reachable <;> rfl

/-! Section: Claim C7 — pagination object -/

/-- Claim C7 counterexample: with an empty table and `page = 2`, the
MySQL/SQLite variants return `hasPrev = true` (the code computes
`hasPrev = page > 1` independently of `totalJobs`), contradicting the
claim that `hasPrev` is false whenever `totalJobs` is 0. -/
theorem claim7_counterexample :
    (v6Pagination 2 0).totalJobs = 0 ∧ (v6Pagination 2 0).hasPrev = true :=
  ⟨rfl, rfl⟩

/-- Claim C7 (amended): the MySQL/SQLite variants' pagination object
carries all five fields with `totalPages = ceil(totalJobs/24)` (`ceil24`
is exactly the ceiling of division by 24), `hasNext = page < totalPages`
and `hasPrev = page > 1`; when `totalJobs` is 0, `totalPages` is 0 and
`hasNext` is false, but `hasPrev` remains `page > 1`. The Postgres
variant's pagination object has only `currentPage`, `totalPages` and
`totalJobs` — no `hasNext`/`hasPrev`. -/
theorem claim7_theorem : ∀ page total : Nat,
    v6Pagination page total =
      ⟨page, ceil24 total, total, decide (page < ceil24 total), decide (1 < page)⟩
    ∧ pgPagination page total = ⟨page, ceil24 total, total⟩
    ∧ (total ≤ 24 * ceil24 total ∧ ∀ m : Nat, total ≤ 24 * m → ceil24 total ≤ m)
    ∧ (total = 0 → v6Pagination page total = ⟨page, 0, 0, false, decide (1 < page)⟩) := by
  intro page total
  refine ⟨rfl, rfl, ⟨?_, fun m hm => ?_⟩, fun h => ?_⟩
  · unfold ceil24; omega
  · unfold ceil24; omega
  · subst h
    simp [v6Pagination, ceil24]

/-- Claim C7 witness: the amended theorem applied at `page = 2`,
`total = 0`, and to the minimality part at `m = 1`. -/
theorem claim7_witness :
    (0 = 0) ∧ (0 ≤ 24 * 1)
    ∧ v6Pagination 2 0 = ⟨2, 0, 0, false, decide (1 < 2)⟩
    ∧ ceil24 0 ≤ 1 :=
  ⟨rfl, by omega, (claim7_theorem 2 0).2.2.2 rfl, (claim7_theorem 2 0).2.2.1.2 1 (by omega)⟩

/-! Section: Claim C9 — point lookup of a nonexistent id -/

/-- Claim C9 counterexample: the MySQL/SQLite variants answer a
nonexistent id with body `error: Job not found`, not the claimed
`error: Post not found`. -/
theorem claim9_counterexample :
    v6GetById [] 5 = IdLookup.httpError 404 "Job not found"
    ∧ "Job not found" ≠ "Post not found" :=
  ⟨rfl, by decide⟩

/-- Claim C9 (amended): a `GET /posts/:id` whose id matches no record
always yields the 404 not-found outcome and never a generic server
error, with message `Post not found` in the Postgres variant and
`Job not found` in the MySQL/SQLite variants. -/
theorem claim9_theorem : ∀ (db : List PostRow) (i : Nat),
    db.find? (fun r => r.id = i) = none →
    pgGetById db i = IdLookup.httpError 404 "Post not found"
    ∧ v6GetById db i = IdLookup.httpError 404 "Job not found" := by
  intro db i h
  constructor <;> simp [pgGetById, v6GetById, h]

/-- Claim C9 witness: the amended theorem applied to the empty table. -/
theorem claim9_witness :
    ([] : List PostRow).find? (fun r => r.id = 0) = none
    ∧ (pgGetById [] 0 = IdLookup.httpError 404 "Post not found"
       ∧ v6GetById [] 0 = IdLookup.httpError 404 "Job not found") :=
  ⟨rfl, claim9_theorem [] 0 rfl⟩

/-! Section: Claim C10 — whitespace-only required fields pass validation -/

/-- Claim C10 (confirmed): the required-field check of all three variants
rejects exactly falsy values (`!title || !description`), so a title and
description consisting of a single space pass validation and a record is
written (status 201 and a new row appended) on every backend. -/
theorem claim10_theorem : ∀ (db : List PostRow) (nid now : Nat) (b : ReqBody),
    b.title = jsStr " " → b.description = jsStr " " → b.job_req_id = jsUndefined →
    requiredOk b.title b.description = true
    ∧ (∀ s d : String, requiredOk (jsStr s) (jsStr d) = ((s != "") && (d != "")))
    ∧ pgPost db nid now b = ⟨201, db ++ [pgNewRow b nid now], nid + 1⟩
    ∧ mysqlPost db nid now b = ⟨201, db ++ [v6NewRow b nid now], nid + 1⟩
    ∧ sqlitePost db nid now b = ⟨201, db ++ [v6NewRow b nid now], nid + 1⟩ := by
  intro db nid now b ht hd hk
  have hreq : requiredOk b.title b.description = true := by rw [ht, hd]; rfl
  have hany : db.any (keyConflict jsNull) = false := by
    rw [List.any_eq_false]
    intro x hx
    simp [keyConflict_null]
  refine ⟨hreq, fun s d => rfl, ?_, ?_, ?_⟩
  · exact pgPost_insert db nid now b hreq (by rw [hk]; exact hany)
  · exact mysqlPost_insert db nid now b hreq (by rw [hk]; exact hany)
  · exact sqlitePost_insert db nid now b hreq (by rw [hk]; exact hany)

/-- Claim C10 witness: the theorem applied to the single-space body on an
empty table. -/
theorem claim10_witness :
    bodyWs.title = jsStr " "
    ∧ (requiredOk bodyWs.title bodyWs.description = true
       ∧ (∀ s d : String, requiredOk (jsStr s) (jsStr d) = ((s != "") && (d != "")))
       ∧ pgPost [] 1 0 bodyWs = ⟨201, [] ++ [pgNewRow bodyWs 1 0], 1 + 1⟩
       ∧ mysqlPost [] 1 0 bodyWs = ⟨201, [] ++ [v6NewRow bodyWs 1 0], 1 + 1⟩
       ∧ sqlitePost [] 1 0 bodyWs = ⟨201, [] ++ [v6NewRow bodyWs 1 0], 1 + 1⟩) :=
  ⟨rfl, claim10_theorem [] 1 0 bodyWs rfl rfl rfl⟩

/-! Section: Claim C6 — listing order -/

/-- Claim C6 counterexample: two rows with identical timestamps can come
back from the `ORDER BY created_at DESC` query in either order (the query
has no secondary sort key), so the result is not deterministic and not
id-descending on ties: both orders are valid outcomes, they differ, and
the id-ascending one violates the claimed total order. -/
theorem claim6_counterexample :
    listOutcome [rowT1, rowT2] 1 [rowT1, rowT2]
    ∧ listOutcome [rowT1, rowT2] 1 [rowT2, rowT1]
    ∧ [rowT1, rowT2] ≠ [rowT2, rowT1]
    ∧ ¬ specListSorted [rowT1, rowT2] := by
  refine ⟨⟨[rowT1, rowT2], List.Perm.refl _, ?_, rfl⟩,
          ⟨[rowT2, rowT1], List.Perm.swap rowT2 rowT1 [], ?_, rfl⟩, ?_, ?_⟩
  · simp [createdDescSorted, rowT1, rowT2]
  · simp [createdDescSorted, rowT1, rowT2]
  · simp [rowT1, rowT2]
  · simp [specListSorted, rowT1, rowT2]

/-- Claim C6 (amended): every possible `GET /posts` page has at most 24
rows and is sorted by `created_at` descending; no tie-breaking on `id` —
and hence no determinism across ties — is guaranteed by the query. -/
theorem claim6_theorem : ∀ (db : List PostRow) (page : Nat) (res : List PostRow),
    listOutcome db page res → res.length ≤ 24 ∧ createdDescSorted res := by
  intro db page res h
  obtain ⟨ord, _, hsort, hres⟩ := h
  subst hres
  constructor
  · simp [listWindow]
  · unfold createdDescSorted at hsort ⊢
    exact List.Pairwise.sublist
      (List.Sublist.trans (List.take_sublist _ _) (List.drop_sublist _ _)) hsort

/-- Claim C6 witness: the amended theorem applied to the empty table. -/
theorem claim6_witness :
    listOutcome [] 1 [] ∧ (([] : List PostRow).length ≤ 24 ∧ createdDescSorted []) :=
  ⟨⟨[], List.Perm.nil, List.Pairwise.nil, rfl⟩,
   claim6_theorem [] 1 [] ⟨[], List.Perm.nil, List.Pairwise.nil, rfl⟩⟩

/-! Section: Claim C4 — which fields a colliding upsert refreshes -/

/-- Claim C4 counterexample: on the MySQL primary, an upsert colliding on
`job_req_id = J1` leaves the stored `company_logo` at its old value even
though the request carried a new one — `company_logo` is not in the
`ON DUPLICATE KEY UPDATE` list, contradicting the claim that it is
updated on every backend. -/
theorem claim4_counterexample :
    bodyNewLogo.company_logo = jsStr "new.png"
    ∧ rowOld.job_req_id = jsStr "J1"
    ∧ bodyNewLogo.job_req_id = jsStr "J1"
    ∧ ((mysqlPost [rowOld] 9 8 bodyNewLogo).db.map (fun r => r.company_logo))
        = [jsStr "old.png"]
    ∧ jsStr "old.png" ≠ jsStr "new.png" :=
  ⟨rfl, rfl, rfl, rfl, fun h => absurd (congrArg strVal h) (by decide)⟩

/-- Claim C4 (amended): on a `job_req_id` collision the Postgres variant
updates `title`, `description`, `apply_link`, `company_logo` and `skills`
and preserves every other field including `id` and `created_at`; the
MySQL variant updates only `title`, `description` and `apply_link`
(preserving `company_logo` and `skills` too); the SQLite fallback ignores
the write entirely and leaves the row untouched. -/
theorem claim4_theorem : ∀ (r : PostRow) (b : ReqBody) (s : String) (nid now : Nat),
    r.job_req_id = jsStr s → b.job_req_id = jsStr s → s ≠ "" →
    requiredOk b.title b.description = true →
    pgPost [r] nid now b =
      ⟨201,
       [{ r with
          title := sqlBind b.title
          description := sqlBind b.description
          apply_link := sqlBind b.apply_link
          company_logo := sqlBind b.company_logo
          skills := jsArr ((normalizeSkills b.skills).map jsStr) }],
       nid⟩
    ∧ mysqlPost [r] nid now b =
      ⟨201,
       [{ r with
          title := sqlBind b.title
          description := sqlBind b.description
          apply_link := sqlBind b.apply_link }],
       nid⟩
    ∧ sqlitePost [r] nid now b = ⟨201, [r], nid⟩ := by
  intro r b s nid now hr hb hs hreq
  have hkey : keyConflict (jsStr s) r = true := keyConflict_of_eq hr
  have hbind : sqlBind b.job_req_id = jsStr s := by rw [hb]; rfl
  have hbind2 : sqlBind (jsOrNull b.job_req_id) = jsStr s := by
    rw [hb, jsOrNull_of_truthy (by simp [truthy, hs])]; rfl
  have hany : [r].any (keyConflict (jsStr s)) = true := by simp [hkey]
  refine ⟨?_, ?_, ?_⟩
  · rw [pgPost_update [r] nid now b hreq (by rw [hbind]; exact hany)]
    rw [hbind]
    simp [hkey, pgUpdateRow]
  · rw [mysqlPost_update [r] nid now b hreq (by rw [hbind2]; exact hany)]
    rw [hbind2]
    simp [hkey, mysqlUpdateRow]
  · exact sqlitePost_ignore [r] nid now b hreq (by rw [hbind2]; exact hany)

/-- Claim C4 witness: the amended theorem applied to the stored row
`rowOld` and the request `bodyNewLogo`. -/
theorem claim4_witness :
    rowOld.job_req_id = jsStr "J1"
    ∧ (pgPost [rowOld] 9 8 bodyNewLogo =
        ⟨201,
         [{ rowOld with
            title := jsStr "T1"
            description := jsStr "D1"
            apply_link := jsNull
            company_logo := jsStr "new.png"
            skills := jsArr [] }],
         9⟩
       ∧ mysqlPost [rowOld] 9 8 bodyNewLogo =
        ⟨201,
         [{ rowOld with
            title := jsStr "T1"
            description := jsStr "D1"
            apply_link := jsNull }],
         9⟩
       ∧ sqlitePost [rowOld] 9 8 bodyNewLogo = ⟨201, [rowOld], 9⟩) :=
  ⟨rfl, claim4_theorem rowOld bodyNewLogo "J1" 9 8 rfl rfl (by decide) (by decide)⟩

/-! Section: Claim C5 — absent optional fields on a colliding upsert -/

/-- Claim C5 counterexample: in the Postgres variant, an upsert whose
request body carries no `company_logo` at all overwrites the existing
stored logo with SQL `NULL` (via `company_logo = EXCLUDED.company_logo`),
contradicting the claim that absent fields never blank stored values. -/
theorem claim5_counterexample :
    bodyNoLogo.company_logo = jsUndefined
    ∧ rowOld.company_logo = jsStr "old.png"
    ∧ ((pgPost [rowOld] 9 8 bodyNoLogo).db.map (fun r => r.company_logo)) = [jsNull]
    ∧ jsNull ≠ jsStr "old.png" :=
  ⟨rfl, rfl, rfl, fun h => absurd (congrArg isStr h) (by decide)⟩

/-- Claim C5 (amended): on a Postgres-variant collision every field in the
conflict-update list is overwritten with the incoming bound value — so an
absent `company_logo` becomes SQL `NULL` — while the fields outside that
list (and `id`/`created_at`) are preserved; on the MySQL variant
`company_logo` is not in the update list and so survives regardless of
the request. -/
theorem claim5_theorem : ∀ (r : PostRow) (b : ReqBody) (s : String) (nid now : Nat),
    r.job_req_id = jsStr s → b.job_req_id = jsStr s → s ≠ "" →
    requiredOk b.title b.description = true → b.company_logo = jsUndefined →
    ((pgPost [r] nid now b).db.map (fun x => x.company_logo) = [jsNull])
    ∧ ((pgPost [r] nid now b).db.map
        (fun x => (x.id, x.created_at, x.company_name, x.location, x.experience,
                   x.remote_type, x.time_type, x.posted_date))
       = [(r.id, r.created_at, r.company_name, r.location, r.experience,
           r.remote_type, r.time_type, r.posted_date)])
    ∧ ((mysqlPost [r] nid now b).db.map (fun x => x.company_logo) = [r.company_logo]) := by
  intro r b s nid now hr hb hs hreq hcl
  have hkey : keyConflict (jsStr s) r = true := keyConflict_of_eq hr
  have hbind : sqlBind b.job_req_id = jsStr s := by rw [hb]; rfl
  have hbind2 : sqlBind (jsOrNull b.job_req_id) = jsStr s := by
    rw [hb, jsOrNull_of_truthy (by simp [truthy, hs])]; rfl
  have hany : [r].any (keyConflict (jsStr s)) = true := by simp [hkey]
  refine ⟨?_, ?_, ?_⟩
  · rw [pgPost_update [r] nid now b hreq (by rw [hbind]; exact hany)]
    rw [hbind]
    simp [hkey, pgUpdateRow, hcl, sqlBind]
  · rw [pgPost_update [r] nid now b hreq (by rw [hbind]; exact hany)]
    rw [hbind]
    simp [hkey, pgUpdateRow]
  · rw [mysqlPost_update [r] nid now b hreq (by rw [hbind2]; exact hany)]
    rw [hbind2]
    simp [hkey, mysqlUpdateRow]

/-- Claim C5 witness: the amended theorem applied to `rowOld` and the
logo-less request `bodyNoLogo`. -/
theorem claim5_witness :
    bodyNoLogo.company_logo = jsUndefined
    ∧ (((pgPost [rowOld] 9 8 bodyNoLogo).db.map (fun x => x.company_logo) = [jsNull])
       ∧ ((pgPost [rowOld] 9 8 bodyNoLogo).db.map
            (fun x => (x.id, x.created_at, x.company_name, x.location, x.experience,
                       x.remote_type, x.time_type, x.posted_date))
          = [(rowOld.id, rowOld.created_at, rowOld.company_name, rowOld.location,
              rowOld.experience, rowOld.remote_type, rowOld.time_type,
              rowOld.posted_date)])
       ∧ ((mysqlPost [rowOld] 9 8 bodyNoLogo).db.map (fun x => x.company_logo)
          = [rowOld.company_logo])) :=
  ⟨rfl, claim5_theorem rowOld bodyNoLogo "J1" 9 8 rfl rfl (by decide) (by decide) rfl⟩

/-! Section: Claim C1 — two writes with the same requisition key -/

/-- Claim C1 counterexample: on the SQLite fallback, two writes with key
`J1` and titles `A` then `B` leave exactly one record under `J1` — but its
title is `A`, the FIRST write's title (`INSERT OR IGNORE` drops the second
write), not the later one as claimed. -/
theorem claim1_counterexample :
    titlesUnder "J1" (sqlitePost (sqlitePost [] 1 0 bodyA).db 2 1 bodyB).db = [jsStr "A"]
    ∧ bodyB.title = jsStr "B"
    ∧ jsStr "A" ≠ jsStr "B" :=
  ⟨rfl, rfl, fun h => absurd (congrArg strVal h) (by decide)⟩

/-- Claim C1 (amended): from a table with no record under a non-empty key
`s`, two valid writes carrying `s` with titles `t1` then `t2` leave
exactly one record under `s` on every backend; on the Postgres and MySQL
primaries its title is the later write's, while on the SQLite fallback the
second write is ignored and the surviving title is the first write's. -/
theorem claim1_theorem : ∀ (db : List PostRow) (b1 b2 : ReqBody) (s : String)
    (n1 t1 n2 t2 : Nat),
    s ≠ "" → b1.job_req_id = jsStr s → b2.job_req_id = jsStr s →
    requiredOk b1.title b1.description = true →
    requiredOk b2.title b2.description = true →
    db.filter (fun r => keyConflict (jsStr s) r) = [] →
    titlesUnder s (pgPost (pgPost db n1 t1 b1).db n2 t2 b2).db = [b2.title]
    ∧ titlesUnder s (mysqlPost (mysqlPost db n1 t1 b1).db n2 t2 b2).db = [b2.title]
    ∧ titlesUnder s (sqlitePost (sqlitePost db n1 t1 b1).db n2 t2 b2).db = [b1.title] := by
  intro db b1 b2 s n1 t1 n2 t2 hs h1 h2 hv1 hv2 hdb
  have htr : truthy (jsStr s) = true := by simp [truthy, hs]
  have hany0 : db.any (fun r => keyConflict (jsStr s) r) = false :=
    any_eq_false_of_filter_eq_nil hdb
  have hb1 : sqlBind b1.job_req_id = jsStr s := by rw [h1]; rfl
  have hb2 : sqlBind b2.job_req_id = jsStr s := by rw [h2]; rfl
  have hb1' : sqlBind (jsOrNull b1.job_req_id) = jsStr s := by
    rw [h1, jsOrNull_of_truthy htr]; rfl
  have hb2' : sqlBind (jsOrNull b2.job_req_id) = jsStr s := by
    rw [h2, jsOrNull_of_truthy htr]; rfl
  have ht1 : sqlBind b1.title = b1.title :=
    sqlBind_of_truthy (truthy_of_requiredOk hv1).1
  have ht2 : sqlBind b2.title = b2.title :=
    sqlBind_of_truthy (truthy_of_requiredOk hv2).1
  refine ⟨?_, ?_, ?_⟩
  · -- Postgres: insert then conflict-update
    have hnew : (pgNewRow b1 n1 t1).job_req_id = jsStr s := by
      simp [pgNewRow, hb1]
    have hkey : keyConflict (jsStr s) (pgNewRow b1 n1 t1) = true := keyConflict_of_eq hnew
    rw [pgPost_insert db n1 t1 b1 hv1 (by rw [hb1]; exact hany0)]
    rw [pgPost_update _ n2 t2 b2 hv2 (by rw [hb2]; simp [List.any_append, hkey])]
    show titlesUnder s (List.map _ _) = _
    rw [hb2]
    unfold titlesUnder
    rw [filter_map_keyed (fun r => keyConflict (jsStr s) r) (pgUpdateRow b2)
        (fun r => keyConflict_congr rfl)]
    rw [List.filter_append, hdb]
    simp [List.filter_cons, hkey, pgUpdateRow, ht2]
  · -- MySQL: insert then duplicate-key update
    have hnew : (v6NewRow b1 n1 t1).job_req_id = jsStr s := by
      simp [v6NewRow, hb1']
    have hkey : keyConflict (jsStr s) (v6NewRow b1 n1 t1) = true := keyConflict_of_eq hnew
    rw [mysqlPost_insert db n1 t1 b1 hv1 (by rw [hb1']; exact hany0)]
    rw [mysqlPost_update _ n2 t2 b2 hv2 (by rw [hb2']; simp [List.any_append, hkey])]
    show titlesUnder s (List.map _ _) = _
    rw [hb2']
    unfold titlesUnder
    rw [filter_map_keyed (fun r => keyConflict (jsStr s) r) (mysqlUpdateRow b2)
        (fun r => keyConflict_congr rfl)]
    rw [List.filter_append, hdb]
    simp [List.filter_cons, hkey, mysqlUpdateRow, ht2]
  · -- SQLite: insert then ignored write
    have hnew : (v6NewRow b1 n1 t1).job_req_id = jsStr s := by
      simp [v6NewRow, hb1']
    have hkey : keyConflict (jsStr s) (v6NewRow b1 n1 t1) = true := keyConflict_of_eq hnew
    rw [sqlitePost_insert db n1 t1 b1 hv1 (by rw [hb1']; exact hany0)]
    rw [sqlitePost_ignore _ n2 t2 b2 hv2 (by rw [hb2']; simp [List.any_append, hkey])]
    unfold titlesUnder
    rw [List.filter_append, hdb]
    simp only [List.nil_append, List.filter_cons, hkey, if_true, List.filter_nil,
      List.map_cons, List.map_nil]
    show [sqlBind b1.title] = [b1.title]
    rw [ht1]

/-- Claim C1 witness: the amended theorem applied to an empty table and
the concrete writes `bodyA` (title `A`) and `bodyB` (title `B`) under key
`J1`. -/
theorem claim1_witness :
    ("J1" : String) ≠ ""
    ∧ (titlesUnder "J1" (pgPost (pgPost [] 1 0 bodyA).db 2 1 bodyB).db = [bodyB.title]
       ∧ titlesUnder "J1" (mysqlPost (mysqlPost [] 1 0 bodyA).db 2 1 bodyB).db = [bodyB.title]
       ∧ titlesUnder "J1" (sqlitePost (sqlitePost [] 1 0 bodyA).db 2 1 bodyB).db
           = [bodyA.title]) :=
  ⟨by decide,
   claim1_theorem [] bodyA bodyB "J1" 1 0 2 1 (by decide) rfl rfl (by decide) (by decide) rfl⟩

/-! Section: Claim C8 — skills in responses -/

/-- After dropping a prefix of characters satisfying `p`, a nonempty
remainder starts with a character violating `p`. -/
theorem dropWhile_head_false {p : Char → Bool} :
    ∀ (l : List Char) (c : Char), (l.dropWhile p).head? = some c → p c = false := by
  intro l
  induction l with
  | nil => intro c hc; simp at hc
  | cons a t ih =>
    intro c hc
    rw [List.dropWhile_cons] at hc
    by_cases hpa : p a = true
    · rw [if_pos hpa] at hc
      exact ih c hc
    · rw [Bool.not_eq_true] at hpa
      rw [if_neg (by simp [hpa])] at hc
      simp only [List.head?_cons, Option.some.injEq] at hc
      rw [← hc]
      exact hpa

/-- Every element of a cleaned skills list has a non-whitespace character
(in particular it is neither empty nor whitespace-only). -/
theorem cleanSkills_no_blank {arr : List JSVal} {x : String} (hx : x ∈ cleanSkills arr) :
    x.toList.all isTrimWs = false := by
  unfold cleanSkills at hx
  rw [List.mem_filter] at hx
  obtain ⟨hmem, hlen⟩ := hx
  rw [List.mem_map] at hmem
  obtain ⟨v', _, rfl⟩ := hmem
  have hlen' : 0 < (jsTrim (strVal v')).length := by simpa using hlen
  have hL : ((strVal v').toList.dropWhile isTrimWs).reverse.dropWhile isTrimWs ≠ [] := by
    intro hcon
    rw [jsTrim] at hlen'
    rw [hcon] at hlen'
    simp [String.length] at hlen'
  cases hLcase : ((strVal v').toList.dropWhile isTrimWs).reverse.dropWhile isTrimWs with
  | nil => exact absurd hLcase hL
  | cons c rest =>
    have hpc : isTrimWs c = false :=
      dropWhile_head_false ((strVal v').toList.dropWhile isTrimWs).reverse c
        (by rw [hLcase]; rfl)
    have hmemc : c ∈ (jsTrim (strVal v')).toList := by
      show c ∈ (((strVal v').toList.dropWhile isTrimWs).reverse.dropWhile isTrimWs).reverse
      rw [hLcase]
      simp
    cases hall : (jsTrim (strVal v')).toList.all isTrimWs
    · rfl
    · exfalso
      rw [List.all_eq_true] at hall
      have hc := hall _ hmemc
      rw [hpc] at hc
      exact Bool.noConfusion hc

/-- Claim C8 counterexample: in the MySQL/SQLite variants the write path
stores `JSON.stringify(skills || [])` without any cleaning, so a request
whose skills field is the plain string `php` is stored as the JSON text
of a string, and `GET /posts/:id` answers with skills equal to the raw
string `php` — not a sequence; likewise an array with a whitespace-only
entry round-trips into the response unchanged. -/
theorem claim8_counterexample :
    (v6NewRow bodyPhp 1 0).skills = jsStr "\"php\""
    ∧ v6GetById [v6NewRow bodyPhp 1 0] 1
        = IdLookup.okRow (v6NewRow bodyPhp 1 0) (jsStr "php")
    ∧ isArr (jsStr "php") = false
    ∧ v6GetSkills (jsStr (v6SkillsString (jsArr [jsStr "a", jsStr " "])))
        = jsArr [jsStr "a", jsStr " "] := by
  have hs : v6SkillsString (jsStr "php") = "\"php\"" := by
    unfold v6SkillsString jsonStringify
    rw [if_pos (by decide : truthy (jsStr "php") = true)]
    rw [show jsSize (jsStr "php") = 1 from by simp [jsSize]]
    rfl
  have hs2 : v6SkillsString (jsArr [jsStr "a", jsStr " "]) = "[\"a\",\" \"]" := by
    unfold v6SkillsString jsonStringify
    rw [if_pos (by decide : truthy (jsArr [jsStr "a", jsStr " "]) = true)]
    rw [show jsSize (jsArr [jsStr "a", jsStr " "]) = 6 from by simp [jsSize]]
    rfl
  refine ⟨?_, ?_, rfl, ?_⟩
  · show jsStr (v6SkillsString (jsStr "php")) = jsStr "\"php\""
    rw [hs]
  · have hfind : ([v6NewRow bodyPhp 1 0]).find? (fun r => r.id = 1)
        = some (v6NewRow bodyPhp 1 0) :=
      List.find?_cons_of_pos _ (by decide)
    unfold v6GetById
    rw [hfind]
    show IdLookup.okRow _ (v6GetSkills (jsStr (v6SkillsString (jsStr "php")))) = _
    rw [hs]
    exact rfl
  · rw [hs2]
    exact rfl

/-- Claim C8 (amended): on the Postgres variant the write-side
normalization guarantees the invariant the claim states — every skills
entry that reaches the `jsonb` column (and hence every entry in a
response) is a string with some non-whitespace character, so responses
never carry blank or whitespace-only entries there; the MySQL/SQLite
variants (see the counterexample) do not clean on write and can answer
with a raw string or with blank entries. -/
theorem claim8_theorem : ∀ (v : JSVal) (x : String),
    x ∈ normalizeSkills v → x.toList.all isTrimWs = false := by
  intro v x hx
  unfold normalizeSkills at hx
  exact cleanSkills_no_blank hx

/-- Claim C8 witness: the amended theorem applied to the skills value
`a` (a non-JSON string, kept whole by the comma-split branch). -/
theorem claim8_witness :
    "a" ∈ normalizeSkills (jsStr "a") ∧ "a".toList.all isTrimWs = false :=
  ⟨by decide, claim8_theorem (jsStr "a") "a" (by decide)⟩

/-! Section: Claim C3 — the write-side skills normalization -/

/-- One step of the cleanup pass: a cons is kept exactly when it is a
truthy string whose trim is nonempty, and it is kept trimmed. -/
theorem cleanSkills_cons (v : JSVal) (xs : List JSVal) :
    cleanSkills (v :: xs) =
      match v with
      | jsStr t =>
        if t ≠ "" ∧ 0 < (jsTrim t).length then jsTrim t :: cleanSkills xs
        else cleanSkills xs
      | _ => cleanSkills xs := by
  cases v with
  | jsStr t =>
    by_cases h1 : t = ""
    · simp [cleanSkills, List.filter_cons, truthy, isStr, h1]
    · by_cases h2 : 0 < (jsTrim t).length
      · simp [cleanSkills, List.filter_cons, truthy, isStr, strVal, h1, h2]
      · simp [cleanSkills, List.filter_cons, truthy, isStr, strVal, h1, h2]
  | jsUndefined => simp [cleanSkills, List.filter_cons, truthy, isStr]
  | jsNull => simp [cleanSkills, List.filter_cons, truthy, isStr]
  | jsBool b => simp [cleanSkills, List.filter_cons, truthy, isStr]
  | jsNum n => simp [cleanSkills, List.filter_cons, truthy, isStr]
  | jsArr l => simp [cleanSkills, List.filter_cons, truthy, isStr]
  | jsObj l => simp [cleanSkills, List.filter_cons, truthy, isStr]

/-- The cleanup pass as a single order-preserving `filterMap`: non-strings
are dropped, strings are trimmed, empty-after-trim entries are dropped. -/
theorem cleanSkills_filterMap : ∀ xs : List JSVal,
    cleanSkills xs =
      xs.filterMap (fun v =>
        match v with
        | jsStr t => if t ≠ "" ∧ 0 < (jsTrim t).length then some (jsTrim t) else none
        | _ => none) := by
  intro xs
  induction xs with
  | nil => rfl
  | cons a t ih =>
    rw [cleanSkills_cons, List.filterMap_cons]
    cases a with
    | jsStr s =>
      by_cases h : s ≠ "" ∧ 0 < (jsTrim s).length
      · simp [h, ih]
      · simp [h, ih]
    | jsUndefined => simp [ih]
    | jsNull => simp [ih]
    | jsBool b => simp [ih]
    | jsNum n => simp [ih]
    | jsArr l => simp [ih]
    | jsObj l => simp [ih]

/-- Claim C3 (confirmed): the Postgres variant's skills normalization
keeps a sequence as is, parses a string that is a JSON array, comma-splits
(and trims) a string that is not JSON, turns every other shape — and a
string parsing to non-array JSON — into the empty sequence, never fails;
the cleanup drops non-strings, trims, drops empty-after-trim entries and
preserves order; and the three round-trip examples compute as specified. -/
theorem claim3_theorem :
    (∀ xs : List JSVal, normalizeSkills (jsArr xs) = cleanSkills xs)
    ∧ (∀ s : String,
        normalizeSkills (jsStr s) =
          match jsonParse s with
          | some (jsArr xs) => cleanSkills xs
          | some _ => []
          | none => cleanSkills (commaSplitSkills s))
    ∧ (normalizeSkills jsUndefined = [] ∧ normalizeSkills jsNull = []
       ∧ (∀ b : Bool, normalizeSkills (jsBool b) = [])
       ∧ (∀ n : Int, normalizeSkills (jsNum n) = [])
       ∧ (∀ ms : List (String × JSVal), normalizeSkills (jsObj ms) = []))
    ∧ (∀ xs : List JSVal,
        cleanSkills xs =
          xs.filterMap (fun v =>
            match v with
            | jsStr t => if t ≠ "" ∧ 0 < (jsTrim t).length then some (jsTrim t) else none
            | _ => none))
    ∧ normalizeSkills (jsStr "a, b ,  c") = ["a", "b", "c"]
    ∧ normalizeSkills (jsArr [jsStr "a", jsStr "", jsNull, jsStr " b "]) = ["a", "b"]
    ∧ normalizeSkills (jsStr "not json, still text") = ["not json", "still text"] := by
  refine ⟨fun xs => rfl, fun s => ?_,
    ⟨rfl, rfl, fun b => rfl, fun n => rfl, fun ms => rfl⟩,
    cleanSkills_filterMap, by decide, by decide, by decide⟩
  rcases h : jsonParse s with _ | v
  · simp [normalizeSkills, h]
  · cases v <;> simp [normalizeSkills, cleanSkills, h]
